import Mathlib

/-!
# Verification of the infinite-chat client engine

Shallow embedding of the client-side chat engine of the repository:
* the pure state container `chatReducer` over `ChatState`
  (src/front/src/contexts/ChatContext, `chatReducer`),
* the stream-ingestion loop of `useChat.sendMessage`
  (src/front/src/hooks/useConversations.ts, second document),
* the conversation lifecycle operations of `useConversations`
  (loadUserConversations, loadConversationHistory, createNewConversation,
  deleteConversation, switchConversation).

JavaScript runtime values that flow through the code (parsed JSON, optional
fields, `undefined`) are modelled by the type `Js`; network outcomes are
passed explicitly as environment parameters; every dispatch and every
network request is recorded in an effect trace (`Eff`).
-/

/-- A JavaScript runtime value as it occurs in this code base: the result of
`JSON.parse`, plus `undefined` as produced by missing-property access.
Numbers are modelled as integers (no frame in this protocol carries
fractional numbers). -/
inductive Js where
  | undefined
  | null
  | bool (b : Bool)
  | num (n : Int)
  | str (s : String)
  | arr (elems : List Js)
  | obj (fields : List (String × Js))

/-- JavaScript truthiness of a value. -/
def Js.truthy : Js → Bool
  | .undefined => false
  | .null => false
  | .bool b => b
  | .num n => n != 0
  | .str s => s ≠ ""
  | .arr _ => true
  | .obj _ => true

/-- Strict equality (`===`) of a JavaScript value against a string literal. -/
def Js.isStr : Js → String → Bool
  | .str t, s => t = s
  | _, _ => false

/-- Plain property access `a.k`: throws a TypeError (modelled as `.error ()`)
on `null`/`undefined`, yields the field on objects and `undefined` on other
values and on missing keys. -/
def jsMemberE : Js → String → Except Unit Js
  | .undefined, _ => .error ()
  | .null, _ => .error ()
  | .obj fs, k => .ok ((fs.lookup k).getD .undefined)
  | _, _ => .ok .undefined

/-- Optional-chaining property access `a?.k`: yields `undefined` instead of
throwing on `null`/`undefined`. -/
def jsMemberOpt : Js → String → Js
  | .undefined, _ => .undefined
  | .null, _ => .undefined
  | .obj fs, k => (fs.lookup k).getD .undefined
  | _, _ => .undefined

mutual

/-- JavaScript string coercion as used by `accumulatedContent += newContent`
(approximate for arrays and objects, exact for strings, which is the only
case the protocol produces). -/
def Js.toStr : Js → String
  | .undefined => "undefined"
  | .null => "null"
  | .bool true => "true"
  | .bool false => "false"
  | .num n => toString n
  | .str s => s
  | .arr xs => String.intercalate "," (Js.toStrList xs)
  | .obj _ => "[object Object]"

/-- String coercion of a list of values (array elements). -/
def Js.toStrList : List Js → List String
  | [] => []
  | x :: xs => Js.toStr x :: Js.toStrList xs

end

/-! ## A model of `JSON.parse`

A recursive-descent JSON parser; fuelled to make totality obvious. This
models the platform `JSON.parse` used on each streamed line. Numeric
literals are modelled as integers and `\u` escapes are not interpreted;
neither form occurs in the chat protocol. -/

/-- Decode a single-character JSON string escape. -/
def jsonUnescape : Char → Option Char
  | '"' => some '"'
  | '\\' => some '\\'
  | '/' => some '/'
  | 'b' => some (Char.ofNat 8)
  | 'f' => some (Char.ofNat 12)
  | 'n' => some '\n'
  | 'r' => some '\r'
  | 't' => some '\t'
  | _ => none

/-- Parse the body of a JSON string literal (after the opening quote),
returning the decoded string and the rest of the input. -/
def jsonStrBody (acc : List Char) : List Char → Option (String × List Char)
  | [] => none
  | c :: cs =>
    if c = '"' then some (String.mk acc.reverse, cs)
    else if c = '\\' then
      match cs with
      | [] => none
      | e :: cs2 =>
        match jsonUnescape e with
        | some ce => jsonStrBody (ce :: acc) cs2
        | none => none
    else jsonStrBody (c :: acc) cs

/-- Take a maximal run of decimal digits (accumulated in reverse). -/
def jsonTakeDigits (acc : List Char) : List Char → List Char × List Char
  | [] => (acc, [])
  | c :: cs => if c.isDigit then jsonTakeDigits (c :: acc) cs else (acc, c :: cs)

/-- Numeric value of a reversed digit list. -/
def jsonDigitsVal : List Char → Nat
  | [] => 0
  | c :: cs => jsonDigitsVal cs * 10 + (c.toNat - 48)

/-- Skip JSON whitespace. -/
def jsonSkipWs : List Char → List Char
  | [] => []
  | c :: cs =>
    if c = ' ' ∨ c = '\t' ∨ c = '\n' ∨ c = '\r' then jsonSkipWs cs else c :: cs

mutual

/-- Parse one JSON value. -/
def jsonVal : Nat → List Char → Option (Js × List Char)
  | 0, _ => none
  | fuel + 1, cs =>
    match jsonSkipWs cs with
    | [] => none
    | c :: cs1 =>
      if c = '"' then
        match jsonStrBody [] cs1 with
        | some (s, rest) => some (.str s, rest)
        | none => none
      else if c = '\x7b' then jsonObjBody fuel cs1
      else if c = '[' then jsonArrBody fuel cs1
      else if c = 't' then
        match cs1 with
        | 'r' :: 'u' :: 'e' :: rest => some (.bool true, rest)
        | _ => none
      else if c = 'f' then
        match cs1 with
        | 'a' :: 'l' :: 's' :: 'e' :: rest => some (.bool false, rest)
        | _ => none
      else if c = 'n' then
        match cs1 with
        | 'u' :: 'l' :: 'l' :: rest => some (.null, rest)
        | _ => none
      else if c = '-' then
        match jsonTakeDigits [] cs1 with
        | ([], _) => none
        | (ds, rest) => some (.num (-(jsonDigitsVal ds : Int)), rest)
      else if c.isDigit then
        match jsonTakeDigits [c] cs1 with
        | (ds, rest) => some (.num (jsonDigitsVal ds : Int), rest)
      else none

/-- Parse an object body (after `{`). -/
def jsonObjBody : Nat → List Char → Option (Js × List Char)
  | 0, _ => none
  | fuel + 1, cs =>
    match jsonSkipWs cs with
    | '\x7d' :: rest => some (.obj [], rest)
    | _ => jsonMembers fuel [] cs

/-- Parse the members of an object. -/
def jsonMembers : Nat → List (String × Js) → List Char → Option (Js × List Char)
  | 0, _, _ => none
  | fuel + 1, acc, cs =>
    match jsonSkipWs cs with
    | '"' :: cs1 =>
      match jsonStrBody [] cs1 with
      | none => none
      | some (k, cs2) =>
        match jsonSkipWs cs2 with
        | ':' :: cs3 =>
          match jsonVal fuel cs3 with
          | none => none
          | some (v, cs4) =>
            match jsonSkipWs cs4 with
            | ',' :: cs5 => jsonMembers fuel (acc ++ [(k, v)]) cs5
            | '\x7d' :: cs5 => some (.obj (acc ++ [(k, v)]), cs5)
            | _ => none
        | _ => none
    | _ => none

/-- Parse an array body (after `[`). -/
def jsonArrBody : Nat → List Char → Option (Js × List Char)
  | 0, _ => none
  | fuel + 1, cs =>
    match jsonSkipWs cs with
    | ']' :: rest => some (.arr [], rest)
    | _ => jsonElems fuel [] cs

/-- Parse the elements of an array. -/
def jsonElems : Nat → List Js → List Char → Option (Js × List Char)
  | 0, _, _ => none
  | fuel + 1, acc, cs =>
    match jsonVal fuel cs with
    | none => none
    | some (v, cs1) =>
      match jsonSkipWs cs1 with
      | ',' :: cs2 => jsonElems fuel (acc ++ [v]) cs2
      | ']' :: cs2 => some (.arr (acc ++ [v]), cs2)
      | _ => none

end

namespace JSON

/-- `JSON.parse`: `none` models a thrown `SyntaxError`. -/
def parse (s : String) : Option Js :=
  match jsonVal (2 * s.length + 2) s.data with
  | some (v, rest) => if jsonSkipWs rest = [] then some v else none
  | none => none

end JSON

/-! ## Data model (src/front/src/types, as used by the code) -/

/-- A chat message (`Message` type). `agent`, `metadata` and `isLoading` are
optional fields; `Js.undefined` models their absence. -/
structure Message where
  id : String
  content : String
  sender : String
  timestamp : Int
  agent : Js := .undefined
  metadata : Js := .undefined
  isLoading : Js := .undefined

/-- A conversation-list record (`ConversationInfo` type). -/
structure ConversationInfo where
  conversation_id : String
  title : String
  updated_at : Int
  message_count : Nat
  last_message : Option String

/-- The aggregate state held by `ChatContext`. `currentConversationId` is a
runtime value (a string once set, `null` initially). -/
structure ChatState where
  messages : List Message
  conversations : List ConversationInfo
  currentConversationId : Js
  isLoadingHistory : Bool
  showSidebar : Bool
  inputValue : String

/-- `initialState` of the reducer. -/
def initialState : ChatState :=
  { messages := []
    conversations := []
    currentConversationId := .null
    isLoadingHistory := false
    showSidebar := false
    inputValue := "" }

/-- The `Partial<Message>` update objects that the code dispatches. An outer
`none` means the key is absent from the update object; `some v` means the key
is present with value `v` (which, for `agent`, may itself be `undefined` —
the object spread then overwrites the field with `undefined`). -/
structure MessageUpdate where
  content : Option String := none
  agent : Option Js := none
  isLoading : Option Js := none

/-- The object spread `{ ...msg, ...updates }` of `UPDATE_MESSAGE`. -/
def applyUpdates (m : Message) (u : MessageUpdate) : Message :=
  { m with
    content := u.content.getD m.content
    agent := u.agent.getD m.agent
    isLoading := u.isLoading.getD m.isLoading }

/-- The action sum type of `ChatContext` (`ChatAction`). -/
inductive ChatAction where
  | setMessages (payload : List Message)
  | addMessage (payload : Message)
  | updateMessage (id : String) (updates : MessageUpdate)
  | setConversations (payload : List ConversationInfo)
  | setCurrentConversationId (payload : Js)
  | setLoadingHistory (payload : Bool)
  | setShowSidebar (payload : Bool)
  | setInputValue (payload : String)
  | resetMessages

/-- The pure transition function `chatReducer` of `ChatContext`. -/
def chatReducer (state : ChatState) (action : ChatAction) : ChatState :=
  match action with
  | .setMessages p => { state with messages := p }
  | .addMessage p => { state with messages := state.messages ++ [p] }
  | .updateMessage id u =>
    { state with
      messages := state.messages.map fun msg =>
        if msg.id = id then applyUpdates msg u else msg }
  | .setConversations p => { state with conversations := p }
  | .setCurrentConversationId p => { state with currentConversationId := p }
  | .setLoadingHistory p => { state with isLoadingHistory := p }
  | .setShowSidebar p => { state with showSidebar := p }
  | .setInputValue p => { state with inputValue := p }
  | .resetMessages => { state with messages := [] }

/-! ## Observable effects

Every dispatch and every outward interaction of the hooks is recorded as an
effect, in program order. -/

/-- One observable effect of a hook call. -/
inductive Eff where
  | act (a : ChatAction)
  | cookieWrite (name value : String)
  | chatRequest (message : String)
  | historyRequest (conversationId : String)
  | conversationsRequest
  | createRequest
  | deleteRequest (conversationId : String)

/-- Apply one effect to the store state: dispatches go through `chatReducer`,
network/cookie effects do not touch the store. -/
def applyEff (st : ChatState) (e : Eff) : ChatState :=
  match e with
  | .act a => chatReducer st a
  | _ => st

/-- Apply a trace of effects in order. -/
def applyEffs (st : ChatState) (es : List Eff) : ChatState :=
  es.foldl applyEff st

/-! ## Stream ingestion (`useChat.sendMessage`, read loop)

The loop decodes each read into text, splits it on `'\n'`, and treats each
piece as a line: lines not starting with `"data: "` are ignored; the payload
after the prefix is either the `[DONE]` sentinel (skipped) or JSON of a
frame. Per-line parse failures and TypeErrors are caught (logged) and
processing continues. The running `accumulatedContent` buffer and the
emitted effects are threaded as a pair. -/

/-- Effects of one successfully parsed frame (`data` below), given the
placeholder id and the current `accumulatedContent`; returns the new
accumulated content and the dispatches/requests. A `.error` branch models a
TypeError thrown by a property access inside the surrounding try block, which
is caught before any dispatch of this frame happens. In the `complete`
branch the code starts an un-awaited `loadUserConversations()`, recorded
here as its request; its response resolves outside this call and only ever
replaces `conversations`. -/
def frameEffs (phId : String) (acc : String) (data : Js) : String × List Eff :=
  match jsMemberE data "type" with
  | .error _ => (acc, [])
  | .ok t =>
    if t.isStr "agent_selection" then
      match jsMemberE data "data" with
      | .error _ => (acc, [])
      | .ok dd =>
        match jsMemberE dd "conversation_id", jsMemberE dd "agent" with
        | .ok cid, .ok ag =>
          (acc,
            (if cid.truthy then [Eff.act (.setCurrentConversationId cid)] else []) ++
              (if ag.truthy then
                [Eff.act (.updateMessage phId { agent := some ag })]
              else []))
        | _, _ => (acc, [])
    else if t.isStr "chunk" then
      match jsMemberE data "data" with
      | .error _ => (acc, [])
      | .ok dd =>
        let c := jsMemberOpt dd "content"
        let newContent := if c.truthy then c else .str ""
        if newContent.truthy then
          let acc2 := acc ++ newContent.toStr
          (acc2,
            [Eff.act (.updateMessage phId
              { content := some acc2, agent := some (jsMemberOpt dd "agent") })])
        else (acc, [])
    else if t.isStr "complete" then
      (acc, [Eff.conversationsRequest])
    else (acc, [])

/-- Whether the first list is an initial segment of the second. -/
def charsBeginWith : List Char → List Char → Bool
  | [], _ => true
  | _ :: _, [] => false
  | p :: ps, c :: cs => p = c && charsBeginWith ps cs

/-- `line.startsWith(p)`. -/
def jsStartsWith (s p : String) : Bool :=
  charsBeginWith p.data s.data

/-- `line.slice(n)`: drop the first `n` characters. -/
def jsDropChars (s : String) (n : Nat) : String :=
  String.mk (s.data.drop n)

/-- Process one line of the stream. -/
def processLine (phId : String) (st : String × List Eff) (line : String) :
    String × List Eff :=
  if jsStartsWith line "data: " then
    let jsonData := jsDropChars line 6
    if jsonData = "[DONE]" then st
    else
      match JSON.parse jsonData with
      | none => st
      | some data =>
        let r := frameEffs phId st.1 data
        (r.1, st.2 ++ r.2)
  else st

/-- `chunk.split('\n')` on the character list: splits on every newline,
keeping empty pieces (including a trailing one). -/
def splitNlChars : List Char → List (List Char)
  | [] => [[]]
  | c :: cs =>
    if c = '\n' then [] :: splitNlChars cs
    else
      match splitNlChars cs with
      | [] => [[c]]
      | l :: ls => (c :: l) :: ls

/-- `chunk.split('\n')` on strings. -/
def jsSplitNl (s : String) : List String :=
  (splitNlChars s.data).map String.mk

/-- Process one decoded read chunk: split on newlines, process each piece.
No pending partial-line buffer is carried from one read to the next. -/
def processRead (phId : String) (st : String × List Eff) (read : String) :
    String × List Eff :=
  (jsSplitNl read).foldl (processLine phId) st

/-- Process the whole body: one `processRead` per `reader.read()` result,
starting from an empty `accumulatedContent` and no effects. -/
def processReads (phId : String) (reads : List String) : String × List Eff :=
  reads.foldl (processRead phId) ("", [])

/-- Process a list of already-parsed frames in arrival order (the frame-level
view of the loop: one `frameEffs` application per frame). -/
def runFrames (phId : String) (acc : String) : List Js → String × List Eff
  | [] => (acc, [])
  | f :: fs =>
    let r1 := frameEffs phId acc f
    let r2 := runFrames phId r1.1 fs
    (r2.1, r1.2 ++ r2.2)

/-! ## `useChat.sendMessage` -/

/-- Outcome of the `POST /chat` call, supplied as an environment parameter:
`netError m` — `fetch` rejected with an `Error` whose runtime message is `m`
(e.g. `"Failed to fetch"`); `httpError s` — a response with `ok = false` and
status `s`; `noReader` — an ok response whose body reader is unavailable;
`ok reads` — an ok response whose reads decode to the given text chunks. -/
inductive ChatResponse where
  | netError (message : String)
  | httpError (status : Nat)
  | noReader
  | ok (reads : List String)

/-- The status-category error text chosen when `!response.ok`. -/
def statusErrorMessage (status : Nat) : String :=
  if status = 404 then "Serviço não encontrado. Verifique se o servidor está rodando."
  else if status = 500 then "Erro interno do servidor. Tente novamente mais tarde."
  else if 400 ≤ status ∧ status < 500 then "Erro na solicitação. Verifique os dados enviados."
  else "Erro de conexão. Verifique sua conexão com a internet."

/-- `messageContent.trim()`: strip leading and trailing whitespace. -/
def jsTrim (s : String) : String :=
  String.mk (((s.data.dropWhile Char.isWhitespace).reverse.dropWhile
    Char.isWhitespace).reverse)

/-- The user message built at the top of `sendMessage`
(`id: Date.now().toString()`). -/
def userMsgOf (now : Nat) (content : String) : Message :=
  { id := toString now
    content := content
    sender := "user"
    timestamp := (now : Int) }

/-- The placeholder assistant message (`id: (Date.now() + 1).toString()`,
`isLoading: true`). -/
def loadingMsgOf (now : Nat) : Message :=
  { id := toString (now + 1)
    content := ""
    sender := "assistant"
    timestamp := (now : Int)
    isLoading := .bool true }

/-- `useChat.sendMessage`: returns the final store state and the effect
trace. `now` models `Date.now()` at the call. Mid-stream read rejections are
not modelled (`ok reads` are the successful reads until `done`). -/
def sendMessage (now : Nat) (st : ChatState) (messageContent : String)
    (resp : ChatResponse) : ChatState × List Eff :=
  if jsTrim messageContent = "" then (st, [])
  else
    let loadingId := toString (now + 1)
    let headEffs : List Eff :=
      [.act (.addMessage (userMsgOf now messageContent)),
       .act (.setInputValue ""),
       .act (.addMessage (loadingMsgOf now)),
       .chatRequest messageContent]
    let tailEffs : List Eff :=
      match resp with
      | .netError m =>
        [.act (.updateMessage loadingId
          { content := some m, isLoading := some (.bool false) })]
      | .httpError s =>
        [.act (.updateMessage loadingId
          { content := some (statusErrorMessage s), isLoading := some (.bool false) })]
      | .noReader =>
        [.act (.updateMessage loadingId
          { content := some "No reader available", isLoading := some (.bool false) })]
      | .ok reads =>
        .act (.updateMessage loadingId
          { isLoading := some (.bool false), content := some "" }) ::
          (processReads loadingId reads).2
    let effs := headEffs ++ tailEffs
    (applyEffs st effs, effs)

/-! ## `useConversations` lifecycle operations

Each fetch outcome is an environment parameter; `none` covers both a thrown
fetch and a non-ok response, which the code treats identically (log only). -/

/-- `loadUserConversations`: on success wholesale-replace `conversations`. -/
def loadUserConversations (env : Option (List ConversationInfo))
    (st : ChatState) : ChatState × List Eff :=
  match env with
  | some convs =>
    (chatReducer st (.setConversations convs),
      [.conversationsRequest, .act (.setConversations convs)])
  | none => (st, [.conversationsRequest])

/-- A raw backend history record as read by the mapping in
`loadConversationHistory` (`new Date(msg.timestamp)` is modelled as the
instant itself). -/
structure HistoryRecord where
  id : String
  content : String
  sender : String
  timestamp : Int
  agent : Js
  metadata : Js

/-- The `Message` built from one history record. -/
def historyToMessage (msg : HistoryRecord) : Message :=
  { id := msg.id
    content := msg.content
    sender := msg.sender
    timestamp := msg.timestamp
    agent := msg.agent
    metadata := msg.metadata }

/-- `loadConversationHistory`: set the loading flag, fetch, on success
wholesale-replace `messages` and adopt the id, and release the flag on every
exit path (`finally`). -/
def loadConversationHistory (env : Option (List HistoryRecord))
    (conversationId : String) (st : ChatState) : ChatState × List Eff :=
  let st1 := chatReducer st (.setLoadingHistory true)
  match env with
  | some msgs =>
    let historyMessages := msgs.map historyToMessage
    let st2 := chatReducer st1 (.setMessages historyMessages)
    let st3 := chatReducer st2 (.setCurrentConversationId (.str conversationId))
    (chatReducer st3 (.setLoadingHistory false),
      [.act (.setLoadingHistory true), .historyRequest conversationId,
       .act (.setMessages historyMessages),
       .act (.setCurrentConversationId (.str conversationId)),
       .act (.setLoadingHistory false)])
  | none =>
    (chatReducer st1 (.setLoadingHistory false),
      [.act (.setLoadingHistory true), .historyRequest conversationId,
       .act (.setLoadingHistory false)])

/-- `createNewConversation`: POST; on success adopt `data.conversation_id`
(a TypeError on that access, e.g. a `null` body, is caught before any
dispatch), reset messages and refresh the list; on failure no state change.
`envCreate` is the parsed response body on success. -/
def createNewConversation (envCreate : Option Js)
    (envList : Option (List ConversationInfo)) (st : ChatState) :
    ChatState × List Eff :=
  match envCreate with
  | none => (st, [.createRequest])
  | some body =>
    match jsMemberE body "conversation_id" with
    | .error _ => (st, [.createRequest])
    | .ok cid =>
      let st1 := chatReducer st (.setCurrentConversationId cid)
      let st2 := chatReducer st1 .resetMessages
      let r := loadUserConversations envList st2
      (r.1,
        [.createRequest, .act (.setCurrentConversationId cid),
         .act .resetMessages] ++ r.2)

/-- `deleteConversation`: DELETE; on success, if the deleted id is strictly
equal to `state.currentConversationId`, run the full create flow first, then
refresh the list; on failure (throw or non-ok) no state change. -/
def deleteConversation (envDelete : Option Bool) (envCreate : Option Js)
    (envList1 envList2 : Option (List ConversationInfo))
    (conversationId : String) (st : ChatState) : ChatState × List Eff :=
  match envDelete with
  | none => (st, [.deleteRequest conversationId])
  | some false => (st, [.deleteRequest conversationId])
  | some true =>
    let r1 :=
      if st.currentConversationId.isStr conversationId then
        createNewConversation envCreate envList1 st
      else (st, [])
    let r2 := loadUserConversations envList2 r1.1
    (r2.1, [Eff.deleteRequest conversationId] ++ r1.2 ++ r2.2)

/-- `switchConversation`: no-op if the id is strictly equal to the current
one; otherwise persist the cookie, load the history, close the sidebar. -/
def switchConversation (envHist : Option (List HistoryRecord))
    (conversationId : String) (st : ChatState) : ChatState × List Eff :=
  if st.currentConversationId.isStr conversationId then (st, [])
  else
    let r1 := loadConversationHistory envHist conversationId st
    (chatReducer r1.1 (.setShowSidebar false),
      [Eff.cookieWrite "conversation_id" conversationId] ++ r1.2 ++
        [.act (.setShowSidebar false)])

/-! ## Derived observables used in the statements -/

/-- The content of the message with the given id (first match), if any. -/
def contentOfMsg (st : ChatState) (id : String) : Option String :=
  (st.messages.find? fun m => m.id = id).map Message.content

/-- Whether a message currently displays as loading (`isLoading = true`). -/
def isLoadingTrue (m : Message) : Bool :=
  match m.isLoading with
  | .bool true => true
  | _ => false

/-- Number of history fetches in a trace. -/
def historyFetchCount (es : List Eff) : Nat :=
  es.countP fun e =>
    match e with
    | .historyRequest _ => true
    | _ => false

/-- The `type` discriminant of a parsed frame, when its access does not
throw and yields a string. -/
def frameTypeTag (j : Js) : Option String :=
  match jsMemberE j "type" with
  | .error _ => none
  | .ok (.str s) => some s
  | .ok _ => none

/-- A chunk frame with the given content and optional agent, as the backend
serializes it. -/
def mkChunkFrame (c : String) (ag : Option String) : Js :=
  .obj [("type", .str "chunk"),
        ("data", .obj (("content", Js.str c) ::
          match ag with
          | some a => [("agent", Js.str a)]
          | none => []))]

/-- The `isLoading` value of the message with the given id, if any. -/
def msgIsLoading (st : ChatState) (id : String) : Option Js :=
  (st.messages.find? fun m => m.id = id).map Message.isLoading

/-- Ordered concatenation of a list of strings. -/
def joinAll : List String → String
  | [] => ""
  | c :: cs => c ++ joinAll cs

/-! ## Concrete streams used in scenarios and counterexamples -/

/-- Scenario A, frame 1: `{"type":"chunk","data":{"content":"Ol","agent":"MathAgent"}}`. -/
def scenarioALine1 : String :=
  "data: \x7b\"type\":\"chunk\",\"data\":\x7b\"content\":\"Ol\",\"agent\":\"MathAgent\"\x7d\x7d"

/-- Scenario A, frame 2: `{"type":"chunk","data":{"content":"á!"}}` (no agent). -/
def scenarioALine2 : String :=
  "data: \x7b\"type\":\"chunk\",\"data\":\x7b\"content\":\"á!\"\x7d\x7d"

/-- Scenario A delivered as one read. -/
def scenarioAReads : List String :=
  [scenarioALine1 ++ "\n" ++ scenarioALine2 ++ "\n"]

/-- One chunk frame delivered in a single read. -/
def alignedReads : List String :=
  ["data: \x7b\"type\":\"chunk\",\"data\":\x7b\"content\":\"hi\"\x7d\x7d\n"]

/-- The same byte stream as `alignedReads`, but split by the transport in the
middle of the line (between `"da` and `ta"`). -/
def straddlingReads : List String :=
  ["data: \x7b\"type\":\"chunk\",\"da", "ta\":\x7b\"content\":\"hi\"\x7d\x7d\n"]

/-! ## Invariant machinery for the in-flight send (claim C8) -/

/-- The loading invariant: either no message displays as loading, or the
message sequence ends in the placeholder (an assistant message with the
placeholder id) and no earlier message displays as loading. -/
def LoadingInv (phId : String) (st : ChatState) : Prop :=
  st.messages.filter isLoadingTrue = [] ∨
    ∃ pre m, st.messages = pre ++ [m] ∧ (∀ x ∈ pre, isLoadingTrue x = false) ∧
      m.sender = "assistant" ∧ m.id = phId

/-- Effects that can occur after the placeholder was appended during one
send: message updates that never set `isLoading` to `true`, dispatches that
do not touch `messages`, and outward requests. -/
def TailEff : Eff → Prop
  | .act (.updateMessage _ u) => u.isLoading = none ∨ u.isLoading = some (.bool false)
  | .act (.setCurrentConversationId _) => True
  | .act (.setInputValue _) => True
  | .act (.setConversations _) => True
  | .act _ => False
  | _ => True

/-! # Theorems -/

/-! ## Helper lemmas -/

/-- `UPDATE_MESSAGE` leaves messages with a different id untouched. -/
theorem map_update_fresh (base : List Message) (phId : String) (u : MessageUpdate)
    (h : ∀ m ∈ base, m.id ≠ phId) :
    (base.map fun msg => if msg.id = phId then applyUpdates msg u else msg) = base := by
  induction base with
  | nil => rfl
  | cons x xs ih =>
    have hx := h x (by simp)
    simp only [List.map_cons, if_neg hx, List.cons.injEq, true_and]
    exact ih fun m hm => h m (by simp [hm])

/-- `find?` on a fresh list followed by the target finds the target. -/
theorem find?_fresh (base : List Message) (x : Message) (phId : String)
    (h : ∀ m ∈ base, m.id ≠ phId) (hx : x.id = phId) :
    ((base ++ [x]).find? fun m => m.id = phId) = some x := by
  induction base with
  | nil => simp [List.find?, hx]
  | cons y ys ih =>
    have hy := h y (by simp)
    rw [List.cons_append, List.find?_cons_of_neg _ (by simpa using hy)]
    exact ih fun m hm => h m (by simp [hm])

/-! ## C10 — empty / whitespace-only send is a no-op -/

/-- C10 (confirmed): calling `sendMessage` with an empty or whitespace-only
string is a complete no-op: no message is appended, the input value is not
cleared, no chat request is issued — the state is unchanged and the effect
trace is empty. -/
theorem spec_C10 (now : Nat) (st : ChatState) (messageContent : String)
    (resp : ChatResponse) (h : jsTrim messageContent = "") :
    sendMessage now st messageContent resp = (st, []) := by
  simp [sendMessage, h]

/-- Witness for C10 at a whitespace-only input. -/
theorem spec_C10_witness :
    sendMessage 0 initialState "   " (ChatResponse.ok []) = (initialState, []) :=
  spec_C10 0 initialState "   " (ChatResponse.ok []) (by decide)

/-! ## C7 — history loading always releases the loading flag -/

/-- C7 (confirmed): every execution of `loadConversationHistory` ends with a
`SetLoadingHistory(false)` dispatch and leaves `isLoadingHistory = false`;
on failure the state is exactly the input state with the flag released (in
particular `messages` and `currentConversationId` are unchanged). -/
theorem spec_C7 (env : Option (List HistoryRecord)) (conversationId : String)
    (st : ChatState) :
    (loadConversationHistory env conversationId st).1.isLoadingHistory = false ∧
    (loadConversationHistory env conversationId st).2.getLast? =
      some (.act (.setLoadingHistory false)) ∧
    (env = none →
      (loadConversationHistory env conversationId st).1 =
        { st with isLoadingHistory := false }) := by
  cases env <;> simp [loadConversationHistory, chatReducer]

/-- Witness for C7 on the failure path. -/
theorem spec_C7_witness :
    (loadConversationHistory none "c" initialState).1.isLoadingHistory = false ∧
    (loadConversationHistory none "c" initialState).1 =
      { initialState with isLoadingHistory := false } := by
  have h := spec_C7 none "c" initialState
  exact ⟨h.1, h.2.2 rfl⟩

/-! ## C4 — failure of the chat HTTP call -/

/-- C4 counterexample: on a pure network failure the placeholder's content is
the rejection error's own runtime message (here `"Failed to fetch"`), not the
fixed connectivity-error message the claim requires. -/
theorem spec_C4_counterexample :
    ((sendMessage 0 initialState "oi" (ChatResponse.netError "Failed to fetch")).1.messages.map
      Message.content = ["oi", "Failed to fetch"]) ∧
    msgIsLoading (sendMessage 0 initialState "oi"
      (ChatResponse.netError "Failed to fetch")).1 "1" = some (Js.bool false) ∧
    "Failed to fetch" ≠ "Erro de conexão. Verifique sua conexão com a internet." :=
  ⟨rfl, rfl, by decide⟩

/-- C4 (corrected): if the chat call fails, no frame is parsed and the
placeholder receives exactly one terminal update with `isLoading = false`;
for an HTTP error the content is chosen by status (404 → service-not-found,
500 → internal-error, other 4xx → bad-request, any other non-success status
→ connectivity-error), while a network failure yields the rejection error's
own message rather than the connectivity-error text. -/
theorem spec_C4_amended (now : Nat) (st : ChatState) (msg : String) (status : Nat)
    (m : String) (hne : jsTrim msg ≠ "") :
    ((sendMessage now st msg (.httpError status)).2 =
      [.act (.addMessage (userMsgOf now msg)), .act (.setInputValue ""),
       .act (.addMessage (loadingMsgOf now)), .chatRequest msg,
       .act (.updateMessage (toString (now + 1))
         { content := some (statusErrorMessage status), isLoading := some (.bool false) })]) ∧
    ((sendMessage now st msg (.netError m)).2 =
      [.act (.addMessage (userMsgOf now msg)), .act (.setInputValue ""),
       .act (.addMessage (loadingMsgOf now)), .chatRequest msg,
       .act (.updateMessage (toString (now + 1))
         { content := some m, isLoading := some (.bool false) })]) ∧
    (∀ mm ∈ (sendMessage now st msg (.httpError status)).1.messages,
      mm.id = toString (now + 1) →
        mm.content = statusErrorMessage status ∧ mm.isLoading = .bool false) ∧
    (∀ mm ∈ (sendMessage now st msg (.netError m)).1.messages,
      mm.id = toString (now + 1) → mm.content = m ∧ mm.isLoading = .bool false) ∧
    statusErrorMessage 404 = "Serviço não encontrado. Verifique se o servidor está rodando." ∧
    statusErrorMessage 500 = "Erro interno do servidor. Tente novamente mais tarde." ∧
    (∀ s : Nat, s ≠ 404 → s ≠ 500 → 400 ≤ s → s < 500 →
      statusErrorMessage s = "Erro na solicitação. Verifique os dados enviados.") ∧
    (∀ s : Nat, s ≠ 404 → s ≠ 500 → ¬(400 ≤ s ∧ s < 500) →
      statusErrorMessage s = "Erro de conexão. Verifique sua conexão com a internet.") := by
  refine ⟨by simp [sendMessage, hne], by simp [sendMessage, hne], ?_, ?_, rfl, rfl,
    ?_, ?_⟩
  · intro mm hmm hid
    simp only [sendMessage, if_neg hne, applyEffs, List.foldl, applyEff,
      chatReducer] at hmm
    obtain ⟨x, hx, rfl⟩ := List.mem_map.mp hmm
    by_cases hxid : x.id = toString (now + 1)
    · simp [hxid, applyUpdates]
    · rw [if_neg hxid] at hid ⊢
      exact absurd hid hxid
  · intro mm hmm hid
    simp only [sendMessage, if_neg hne, applyEffs, List.foldl, applyEff,
      chatReducer] at hmm
    obtain ⟨x, hx, rfl⟩ := List.mem_map.mp hmm
    by_cases hxid : x.id = toString (now + 1)
    · simp [hxid, applyUpdates]
    · rw [if_neg hxid] at hid ⊢
      exact absurd hid hxid
  · intro s h404 h500 hlo hhi
    simp [statusErrorMessage, h404, h500, hlo, hhi]
  · intro s h404 h500 hrange
    simp [statusErrorMessage, h404, h500, hrange]

/-- Witness for C4 at a 503 response and a concrete network failure. -/
theorem spec_C4_witness :
    (sendMessage 0 initialState "oi" (.httpError 503)).2 =
      [.act (.addMessage (userMsgOf 0 "oi")), .act (.setInputValue ""),
       .act (.addMessage (loadingMsgOf 0)), .chatRequest "oi",
       .act (.updateMessage "1"
         { content := some (statusErrorMessage 503), isLoading := some (.bool false) })] ∧
    (sendMessage 0 initialState "oi" (.netError "x")).2 =
      [.act (.addMessage (userMsgOf 0 "oi")), .act (.setInputValue ""),
       .act (.addMessage (loadingMsgOf 0)), .chatRequest "oi",
       .act (.updateMessage "1"
         { content := some "x", isLoading := some (.bool false) })] := by
  have h := spec_C4_amended 0 initialState "oi" 503 "x" (by decide)
  exact ⟨h.1, h.2.1⟩

/-! ## C5 — deleting the active conversation -/

/-- C5 counterexample: the DELETE succeeds (`some true`) on the active
conversation `"a"`, but the nested create POST fails (`none`), so
`currentConversationId` still equals the deleted id afterwards. -/
theorem spec_C5_counterexample :
    (deleteConversation (some true) none none none "a"
      { initialState with currentConversationId := Js.str "a" }).1.currentConversationId
      = Js.str "a" := rfl

/-- C5 (corrected): after a successful DELETE of the active conversation the
full create flow does run before the list refresh, and on DELETE failure
nothing changes; but `currentConversationId` differs from the deleted id only
when the nested create POST succeeds (with a fresh id) — when the create
fails, `currentConversationId` remains the deleted id. -/
theorem spec_C5_amended (envCreate : Option Js)
    (l1 l2 : Option (List ConversationInfo)) (id id2 : String) (st : ChatState)
    (hactive : st.currentConversationId = Js.str id) :
    ((deleteConversation (some true) (some (Js.obj [("conversation_id", Js.str id2)]))
        l1 l2 id st).1.currentConversationId = Js.str id2) ∧
    (id2 ≠ id →
      (deleteConversation (some true) (some (Js.obj [("conversation_id", Js.str id2)]))
        l1 l2 id st).1.currentConversationId ≠ Js.str id) ∧
    ((deleteConversation (some true) none l1 l2 id st).1.currentConversationId
      = Js.str id) ∧
    (deleteConversation (some false) envCreate l1 l2 id st = (st, [.deleteRequest id])) ∧
    (deleteConversation none envCreate l1 l2 id st = (st, [.deleteRequest id])) ∧
    ((deleteConversation (some true) (some (Js.obj [("conversation_id", Js.str id2)]))
        l1 l2 id st).2 =
      [.deleteRequest id] ++
        (createNewConversation (some (Js.obj [("conversation_id", Js.str id2)])) l1 st).2 ++
        (loadUserConversations l2 st).2) := by
  have hguard : st.currentConversationId.isStr id = true := by
    rw [hactive]; simp [Js.isStr]
  refine ⟨?_, ?_, ?_, rfl, rfl, ?_⟩
  · cases l1 <;> cases l2 <;>
      simp [deleteConversation, hguard, createNewConversation, loadUserConversations,
        jsMemberE, List.lookup, chatReducer]
  · intro hne h
    have h1 : (deleteConversation (some true)
        (some (Js.obj [("conversation_id", Js.str id2)]))
        l1 l2 id st).1.currentConversationId = Js.str id2 := by
      cases l1 <;> cases l2 <;>
        simp [deleteConversation, hguard, createNewConversation, loadUserConversations,
          jsMemberE, List.lookup, chatReducer]
    rw [h1] at h
    exact hne (by injection h)
  · cases l1 <;> cases l2 <;>
      simp [deleteConversation, hguard, createNewConversation, loadUserConversations,
        jsMemberE, List.lookup, chatReducer, hactive, Js.isStr]
  · cases l1 <;> cases l2 <;>
      simp [deleteConversation, hguard, createNewConversation, loadUserConversations,
        jsMemberE, List.lookup, chatReducer]

/-- Witness for C5 with a successful create returning a fresh id. -/
theorem spec_C5_witness :
    (deleteConversation (some true) (some (Js.obj [("conversation_id", Js.str "b")]))
      none none "a"
      { initialState with currentConversationId := Js.str "a" }).1.currentConversationId
      = Js.str "b" ∧
    (deleteConversation (some false) none none none "a"
      { initialState with currentConversationId := Js.str "a" }) =
      ({ initialState with currentConversationId := Js.str "a" }, [.deleteRequest "a"]) := by
  have h := spec_C5_amended none none none "a" "b"
    { initialState with currentConversationId := Js.str "a" } rfl
  exact ⟨h.1, h.2.2.2.1⟩

/-! ## C6 — switching to the already-active conversation -/

/-- C6 counterexample: starting from a state where `"a"` is not active, two
consecutive `switchConversation "a"` calls whose first history fetch fails
issue two history fetches, not exactly one (the failed first call does not
adopt the id, so the second call is not a no-op). -/
theorem spec_C6_counterexample :
    historyFetchCount ((switchConversation none "a" initialState).2 ++
      (switchConversation none "a" (switchConversation none "a" initialState).1).2) = 2 ∧
    (2 : Nat) ≠ 1 :=
  ⟨rfl, by decide⟩

/-- C6 (corrected): `switchConversation id` is a complete no-op — state
unchanged and empty effect trace (no cookie write, no fetch, no dispatch) —
whenever `id` is strictly equal to the active id; and two consecutive calls
with the same id issue exactly one history fetch provided the id was not
already active and the first call's history fetch succeeds. -/
theorem spec_C6_amended (env env2 : Option (List HistoryRecord)) (id : String)
    (st : ChatState) (msgs : List HistoryRecord) :
    (st.currentConversationId.isStr id = true → switchConversation env id st = (st, [])) ∧
    (st.currentConversationId.isStr id = false →
      historyFetchCount ((switchConversation (some msgs) id st).2 ++
        (switchConversation env2 id (switchConversation (some msgs) id st).1).2) = 1) := by
  constructor
  · intro h
    simp [switchConversation, h]
  · intro h
    have hadopt : (switchConversation (some msgs) id st).1.currentConversationId
        = Js.str id := by
      simp [switchConversation, h, loadConversationHistory, chatReducer]
    have hnoop : (switchConversation env2 id (switchConversation (some msgs) id st).1).2
        = [] := by
      rw [switchConversation]
      rw [hadopt]
      simp [Js.isStr]
    rw [hnoop]
    simp [switchConversation, h, loadConversationHistory, historyFetchCount]

/-- Witness for C6: a no-op on the active id, and a single fetch across two
calls when the first fetch succeeds. -/
theorem spec_C6_witness :
    switchConversation none "a" { initialState with currentConversationId := Js.str "a" } =
      ({ initialState with currentConversationId := Js.str "a" }, []) ∧
    historyFetchCount ((switchConversation (some []) "a" initialState).2 ++
      (switchConversation none "a" (switchConversation (some []) "a" initialState).1).2) = 1 := by
  refine ⟨(spec_C6_amended none none "a"
    { initialState with currentConversationId := Js.str "a" } []).1 (by rfl), ?_⟩
  exact (spec_C6_amended none none "a" initialState []).2 (by rfl)

/-! ## C9 — sentinel and unrecognized frames -/

/-- A frame whose `type` discriminant is not one of the three recognized
tags produces no effects and leaves the accumulated content unchanged. -/
theorem frameEffs_unrecognized (phId acc : String) (j : Js)
    (h1 : frameTypeTag j ≠ some "agent_selection")
    (h2 : frameTypeTag j ≠ some "chunk")
    (h3 : frameTypeTag j ≠ some "complete") :
    frameEffs phId acc j = (acc, []) := by
  unfold frameTypeTag at h1 h2 h3
  unfold frameEffs
  cases hm : jsMemberE j "type" with
  | error e => rfl
  | ok t =>
    rw [hm] at h1 h2 h3
    cases t with
    | str s =>
      have hs1 : s ≠ "agent_selection" := by simpa using h1
      have hs2 : s ≠ "chunk" := by simpa using h2
      have hs3 : s ≠ "complete" := by simpa using h3
      simp [Js.isStr, hs1, hs2, hs3]
    | undefined => simp [Js.isStr]
    | null => simp [Js.isStr]
    | bool b => simp [Js.isStr]
    | num n => simp [Js.isStr]
    | arr xs => simp [Js.isStr]
    | obj fs => simp [Js.isStr]

/-- C9 (confirmed): a stream line whose payload is the `[DONE]` sentinel, or
whose parsed JSON has an unrecognized `type` discriminant, dispatches no
action and leaves the ingestion state — and hence the `ChatState` — exactly
unchanged. -/
theorem spec_C9 (phId : String) (st : String × List Eff) (line : String) (j : Js) :
    (jsStartsWith line "data: " = true → jsDropChars line 6 = "[DONE]" →
      processLine phId st line = st) ∧
    (jsStartsWith line "data: " = true → JSON.parse (jsDropChars line 6) = some j →
      frameTypeTag j ≠ some "agent_selection" → frameTypeTag j ≠ some "chunk" →
      frameTypeTag j ≠ some "complete" → processLine phId st line = st) := by
  constructor
  · intro hs hd
    simp [processLine, hs, hd]
  · intro hs hp h1 h2 h3
    by_cases hd : jsDropChars line 6 = "[DONE]"
    · simp [processLine, hs, hd]
    · simp [processLine, hs, hd, hp, frameEffs_unrecognized phId st.1 j h1 h2 h3]

/-- Witness for C9: the sentinel line and a frame of type `"weird"`. -/
theorem spec_C9_witness :
    processLine "1" ("", []) "data: [DONE]" = ("", []) ∧
    processLine "1" ("", []) "data: \x7b\"type\":\"weird\"\x7d" = ("", []) := by
  have ha := spec_C9 "1" ("", []) "data: [DONE]" Js.null
  have hb := spec_C9 "1" ("", []) "data: \x7b\"type\":\"weird\"\x7d"
    (Js.obj [("type", Js.str "weird")])
  exact ⟨ha.1 (by decide) (by decide),
    hb.2 (by decide) (by rfl) (by decide) (by decide) (by decide)⟩

/-! ## C2 — a chunk frame without an agent field -/

/-- C2 counterexample: Scenario A run through the whole pipeline. The second
chunk carries no agent, and the dispatched update object carries
`agent: undefined`, so the spread clears the placeholder's agent: the final
placeholder is `{content:"Olá!", agent: undefined, isLoading:false}` — its
agent is not `"MathAgent"` as the claim requires. -/
theorem spec_C2_counterexample :
    ((sendMessage 0 initialState "Oi" (ChatResponse.ok scenarioAReads)).1.messages.map
      Message.content = ["Oi", "Olá!"]) ∧
    ((sendMessage 0 initialState "Oi" (ChatResponse.ok scenarioAReads)).1.messages.map
      Message.agent = [Js.undefined, Js.undefined]) ∧
    ((sendMessage 0 initialState "Oi" (ChatResponse.ok scenarioAReads)).1.messages.map
      Message.isLoading = [Js.undefined, Js.bool false]) ∧
    Js.undefined ≠ Js.str "MathAgent" :=
  ⟨rfl, rfl, rfl, fun h => Js.noConfusion h⟩

/-- C2 (corrected): a chunk frame with non-empty content and no agent field
appends the content and dispatches an update whose `agent` key is present
with value `undefined`; applying that update overwrites (clears) any
previously set agent instead of leaving it unchanged. -/
theorem spec_C2_amended (phId acc c : String) (m : Message) (a : Js) (hc : c ≠ "") :
    frameEffs phId acc (mkChunkFrame c none) =
      (acc ++ c, [Eff.act (.updateMessage phId
        { content := some (acc ++ c), agent := some Js.undefined })]) ∧
    (applyUpdates { m with agent := a }
      { content := some (acc ++ c), agent := some Js.undefined }).agent = Js.undefined := by
  refine ⟨?_, rfl⟩
  simp [frameEffs, mkChunkFrame, jsMemberE, jsMemberOpt, Js.isStr, Js.truthy,
    Js.toStr, List.lookup, hc]

/-- Witness for C2 at the Scenario A contents. -/
theorem spec_C2_amended_witness :
    frameEffs "1" "Ol" (mkChunkFrame "á!" none) =
      ("Olá!", [Eff.act (.updateMessage "1"
        { content := some "Olá!", agent := some Js.undefined })]) ∧
    (applyUpdates
      { id := "1", content := "Ol", sender := "assistant", timestamp := 0,
        agent := Js.str "MathAgent" }
      { content := some "Olá!", agent := some Js.undefined }).agent = Js.undefined := by
  have h := spec_C2_amended "1" "Ol" "á!"
    { id := "1", content := "Ol", sender := "assistant", timestamp := 0 }
    (Js.str "MathAgent") (by decide)
  exact ⟨h.1, h.2⟩

/-! ## C1 — chunk accumulation -/

/-- Effects of one chunk frame: empty content is skipped; non-empty content
is appended and dispatched as the full accumulated buffer (together with the
frame's agent value, `undefined` when absent). -/
theorem frameEffs_mkChunkFrame (phId acc c : String) (ag : Option String) :
    frameEffs phId acc (mkChunkFrame c ag) =
      if c = "" then (acc, [])
      else (acc ++ c, [Eff.act (.updateMessage phId
        { content := some (acc ++ c),
          agent := some (match ag with | some a => Js.str a | none => Js.undefined) })]) := by
  cases ag <;> by_cases hc : c = "" <;>
    simp [frameEffs, mkChunkFrame, jsMemberE, jsMemberOpt, Js.isStr, Js.truthy,
      Js.toStr, List.lookup, hc]

/-- Running a sequence of chunk frames: the final accumulated content is the
ordered concatenation of the contents, and every dispatched effect is an
`UpdateMessage` on the placeholder whose content is a full prefix
concatenation (never a delta). -/
theorem runFrames_chunks (phId : String) (cs : List (String × Option String)) :
    ∀ acc : String,
      (runFrames phId acc (cs.map fun p => mkChunkFrame p.1 p.2)).1
          = acc ++ joinAll (cs.map Prod.fst) ∧
      ∀ e ∈ (runFrames phId acc (cs.map fun p => mkChunkFrame p.1 p.2)).2,
        ∃ k u, e = Eff.act (.updateMessage phId u) ∧
          u.content = some (acc ++ joinAll ((cs.map Prod.fst).take k)) := by
  induction cs with
  | nil =>
    intro acc
    refine ⟨by simp [runFrames, joinAll, String.append_empty], ?_⟩
    intro e he
    simp [runFrames] at he
  | cons p ps ih =>
    intro acc
    by_cases hc : p.1 = ""
    · have hf := frameEffs_mkChunkFrame phId acc p.1 p.2
      rw [if_pos hc] at hf
      constructor
      · simp only [List.map_cons, runFrames, hf]
        rw [(ih acc).1]
        simp only [joinAll, hc, String.empty_append]
      · intro e he
        simp only [List.map_cons, runFrames, hf, List.nil_append] at he
        obtain ⟨k, u, hu, hcont⟩ := (ih acc).2 e he
        refine ⟨k + 1, u, hu, ?_⟩
        rw [hcont]
        simp only [List.map_cons, List.take_succ_cons, joinAll, hc, String.empty_append]
    · have hf := frameEffs_mkChunkFrame phId acc p.1 p.2
      rw [if_neg hc] at hf
      constructor
      · simp only [List.map_cons, runFrames, hf]
        rw [(ih (acc ++ p.1)).1]
        simp only [joinAll, String.append_assoc]
      · intro e he
        simp only [List.map_cons, runFrames, hf, List.cons_append, List.nil_append,
          List.mem_cons] at he
        rcases he with rfl | he
        · refine ⟨1, _, rfl, ?_⟩
          simp [List.take_succ_cons, joinAll, String.append_empty]
        · obtain ⟨k, u, hu, hcont⟩ := (ih (acc ++ p.1)).2 e he
          refine ⟨k + 1, u, hu, ?_⟩
          rw [hcont]
          simp only [List.map_cons, List.take_succ_cons, joinAll, String.append_assoc]

/-- Applying the effects of a chunk-frame sequence to a store whose message
list ends in the placeholder: the placeholder stays in place and its content
grows to the full concatenation; no other message is touched. -/
theorem chunkRunState (phId : String) (cs : List (String × Option String)) :
    ∀ (acc : String) (st : ChatState) (base : List Message) (ph : Message),
      st.messages = base ++ [ph] → ph.id = phId → ph.content = acc →
      (∀ m ∈ base, m.id ≠ phId) →
      ∃ ph2 : Message,
        (applyEffs st
          (runFrames phId acc (cs.map fun p => mkChunkFrame p.1 p.2)).2).messages
            = base ++ [ph2] ∧
        ph2.id = phId ∧ ph2.content = acc ++ joinAll (cs.map Prod.fst) := by
  induction cs with
  | nil =>
    intro acc st base ph hmsg hid hcont hfresh
    refine ⟨ph, ?_, hid, ?_⟩
    · simpa [runFrames, applyEffs] using hmsg
    · simp only [List.map_nil, joinAll, String.append_empty]
      exact hcont
  | cons p ps ih =>
    intro acc st base ph hmsg hid hcont hfresh
    by_cases hc : p.1 = ""
    · have hf := frameEffs_mkChunkFrame phId acc p.1 p.2
      rw [if_pos hc] at hf
      simp only [List.map_cons, runFrames, hf, List.nil_append]
      obtain ⟨ph2, h1, h2, h3⟩ := ih acc st base ph hmsg hid hcont hfresh
      refine ⟨ph2, h1, h2, ?_⟩
      rw [h3]
      simp only [List.map_cons, joinAll, hc, String.empty_append]
    · have hf := frameEffs_mkChunkFrame phId acc p.1 p.2
      rw [if_neg hc] at hf
      simp only [List.map_cons, runFrames, hf, List.cons_append, List.nil_append]
      rw [applyEffs, List.foldl_cons]
      set u : MessageUpdate :=
        { content := some (acc ++ p.1),
          agent := some (match p.2 with | some a => Js.str a | none => Js.undefined) } with hu
      have hstep : (applyEff st (Eff.act (.updateMessage phId u))).messages
          = base ++ [applyUpdates ph u] := by
        simp only [applyEff, chatReducer, hmsg, List.map_append, List.map_cons,
          List.map_nil]
        rw [map_update_fresh base phId u hfresh, if_pos hid]
      obtain ⟨ph2, h1, h2, h3⟩ := ih (acc ++ p.1)
        (applyEff st (Eff.act (.updateMessage phId u))) base (applyUpdates ph u)
        hstep (by simpa [applyUpdates] using hid) (by simp [applyUpdates, hu]) hfresh
      refine ⟨ph2, ?_, h2, ?_⟩
      · exact h1
      · rw [h3]
        simp only [List.map_cons, joinAll, String.append_assoc]

/-- C1 (confirmed): for every sequence of chunk frames with contents
`c1..cn` processed by the stream loop of one `sendMessage`, the accumulated
content — and the placeholder's final content in the store — equals the
ordered concatenation `c1 ++ … ++ cn`, and every dispatched `UpdateMessage`
carries a full prefix of that concatenation (the whole accumulated buffer,
never a delta). -/
theorem spec_C1 (cs : List (String × Option String)) (phId : String)
    (st : ChatState) (base : List Message) (ph : Message)
    (hmsg : st.messages = base ++ [ph]) (hid : ph.id = phId)
    (hcont : ph.content = "") (hfresh : ∀ m ∈ base, m.id ≠ phId) :
    (runFrames phId "" (cs.map fun p => mkChunkFrame p.1 p.2)).1
        = joinAll (cs.map Prod.fst) ∧
    (∀ e ∈ (runFrames phId "" (cs.map fun p => mkChunkFrame p.1 p.2)).2,
      ∃ k u, e = Eff.act (.updateMessage phId u) ∧
        u.content = some (joinAll ((cs.map Prod.fst).take k))) ∧
    contentOfMsg
      (applyEffs st (runFrames phId "" (cs.map fun p => mkChunkFrame p.1 p.2)).2)
      phId = some (joinAll (cs.map Prod.fst)) := by
  have hrun := runFrames_chunks phId cs ""
  refine ⟨?_, ?_, ?_⟩
  · rw [hrun.1, String.empty_append]
  · intro e he
    obtain ⟨k, u, hu, hcontent⟩ := hrun.2 e he
    exact ⟨k, u, hu, by rwa [String.empty_append] at hcontent⟩
  · obtain ⟨ph2, h1, h2, h3⟩ := chunkRunState phId cs "" st base ph hmsg hid hcont hfresh
    simp only [contentOfMsg]
    rw [h1, find?_fresh base ph2 phId hfresh h2]
    simp [h3, String.empty_append]

/-- Witness for C1 at the Scenario A chunk contents against a store holding
only the placeholder. -/
theorem spec_C1_witness :
    (runFrames "1" ""
      ([("Ol", some "MathAgent"), ("á!", none)].map fun p => mkChunkFrame p.1 p.2)).1
        = "Olá!" ∧
    contentOfMsg
      (applyEffs
        { initialState with messages :=
            [{ id := "1", content := "", sender := "assistant", timestamp := 0 }] }
        (runFrames "1" ""
          ([("Ol", some "MathAgent"), ("á!", none)].map
            fun p => mkChunkFrame p.1 p.2)).2) "1" = some "Olá!" := by
  have h := spec_C1 [("Ol", some "MathAgent"), ("á!", none)] "1"
    { initialState with messages :=
        [{ id := "1", content := "", sender := "assistant", timestamp := 0 }] }
    [] { id := "1", content := "", sender := "assistant", timestamp := 0 }
    rfl rfl rfl (by simp)
  exact ⟨h.1, h.2.2⟩

/-! ## C3 — line reassembly across read boundaries -/

/-- `split('\n')` never yields the empty list. -/
theorem splitNlChars_ne_nil (l : List Char) : splitNlChars l ≠ [] := by
  induction l with
  | nil => simp [splitNlChars]
  | cons c cs ih =>
    by_cases hc : c = '\n'
    · simp [splitNlChars, hc]
    · simp only [splitNlChars, if_neg hc]
      cases h : splitNlChars cs with
      | nil => exact absurd h ih
      | cons a as => simp

/-- `split('\n')` distributes over a newline occurrence. -/
theorem splitNlChars_append (a b : List Char) :
    splitNlChars (a ++ '\n' :: b) = splitNlChars a ++ splitNlChars b := by
  induction a with
  | nil => simp [splitNlChars]
  | cons c cs ih =>
    by_cases hc : c = '\n'
    · simp [splitNlChars, hc, ih]
    · simp only [List.cons_append, splitNlChars, if_neg hc, List.append_eq]
      rw [ih]
      cases h : splitNlChars cs with
      | nil => exact absurd h (splitNlChars_ne_nil cs)
      | cons x xs => simp

/-- String-level distribution of the newline split. -/
theorem jsSplitNl_append_nl (a b : String) :
    jsSplitNl ((a ++ "\n") ++ b) = jsSplitNl a ++ jsSplitNl b := by
  simp only [jsSplitNl, String.data_append]
  have h : (a.data ++ "\n".data) ++ b.data = a.data ++ '\n' :: b.data := by
    rw [show "\n".data = ['\n'] from rfl]
    simp
  rw [h, splitNlChars_append, List.map_append]

/-- Splitting a newline-terminated string yields a trailing empty piece. -/
theorem jsSplitNl_push_nl (a : String) : jsSplitNl (a ++ "\n") = jsSplitNl a ++ [""] := by
  simp only [jsSplitNl, String.data_append]
  have h : a.data ++ "\n".data = a.data ++ '\n' :: ([] : List Char) := rfl
  rw [h, splitNlChars_append]
  simp [splitNlChars]

/-- The empty line is ignored by the line processing. -/
theorem processLine_emptyLine (phId : String) (st : String × List Eff) :
    processLine phId st "" = st := by
  have h : jsStartsWith "" "data: " = false := by decide
  simp [processLine, h]

/-- Processing one read that ends at a line boundary composes with
processing the remainder. -/
theorem processRead_split (phId : String) (st : String × List Eff) (a b : String) :
    processRead phId st ((a ++ "\n") ++ b)
      = processRead phId (processRead phId st (a ++ "\n")) b := by
  simp only [processRead]
  rw [jsSplitNl_append_nl, jsSplitNl_push_nl, List.foldl_append, List.foldl_append]
  rw [show List.foldl (processLine phId) (List.foldl (processLine phId) st (jsSplitNl a))
      [""] = List.foldl (processLine phId) st (jsSplitNl a) from by
    simp [processLine_emptyLine]]

/-- Folding reads that each end in a newline equals processing their
concatenation as one read. -/
theorem processReads_mapJoin (phId : String) (ps : List String) :
    ∀ st, (ps.map (· ++ "\n")).foldl (processRead phId) st
      = processRead phId st (joinAll (ps.map (· ++ "\n"))) := by
  induction ps with
  | nil =>
    intro st
    simp [joinAll, processRead, jsSplitNl, splitNlChars, processLine_emptyLine]
  | cons p ps ih =>
    intro st
    simp only [List.map_cons, List.foldl_cons, joinAll]
    rw [ih, ← processRead_split]

/-- C3 counterexample: the same byte stream, split by the transport in the
middle of a `data: ` line, produces a different sequence of effects — the
aligned split yields one content update, the straddling split yields none —
so processing is not independent of where the transport splits the stream,
and no pending partial-line buffer reassembles the line. -/
theorem spec_C3_counterexample :
    joinAll alignedReads = joinAll straddlingReads ∧
    (processReads "1" alignedReads).2 =
      [Eff.act (.updateMessage "1" { content := some "hi", agent := some Js.undefined })] ∧
    (processReads "1" straddlingReads).2 = [] ∧
    (processReads "1" alignedReads).2 ≠ (processReads "1" straddlingReads).2 := by
  refine ⟨rfl, rfl, rfl, ?_⟩
  intro h
  have h1 : ((processReads "1" alignedReads).2).length = 1 := rfl
  have h2 : ((processReads "1" straddlingReads).2).length = 0 := rfl
  rw [h] at h1
  rw [h2] at h1
  exact absurd h1 (by decide)

/-- C3 (corrected): the reader keeps no pending partial-line buffer — each
read chunk is split on `'\n'` and its pieces are prefix-tested and parsed
as-is — so the processed frames are independent of the transport split only
when every read ends exactly at a line boundary: in that case processing the
reads one by one equals processing the whole stream as a single read. -/
theorem spec_C3_amended (phId : String) (ps : List String) :
    processReads phId (ps.map (· ++ "\n")) =
      processReads phId [joinAll (ps.map (· ++ "\n"))] := by
  simp only [processReads]
  rw [processReads_mapJoin]
  simp

/-! ## C8 — the loading invariant of one in-flight send -/

/-- An update that does not set `isLoading` to `true` keeps a non-loading
message non-loading. -/
theorem isLoadingTrue_applyUpdates (x : Message) (u : MessageUpdate)
    (hu : u.isLoading = none ∨ u.isLoading = some (.bool false))
    (hx : isLoadingTrue x = false) : isLoadingTrue (applyUpdates x u) = false := by
  rcases hu with hu | hu
  · simpa [applyUpdates, isLoadingTrue, hu] using hx
  · simp [applyUpdates, isLoadingTrue, hu]

/-- The loading invariant only depends on the message list. -/
theorem loadingInv_messages (phId : String) (st st2 : ChatState)
    (h : st2.messages = st.messages) (hinv : LoadingInv phId st) :
    LoadingInv phId st2 := by
  rcases hinv with h1 | ⟨pre, m, hm, hp, hs, hid⟩
  · left; rw [h]; exact h1
  · right; exact ⟨pre, m, by rw [h]; exact hm, hp, hs, hid⟩

/-- Every `TailEff` preserves the loading invariant. -/
theorem tailEff_preserves (phId : String) (e : Eff) (st : ChatState)
    (he : TailEff e) (hinv : LoadingInv phId st) :
    LoadingInv phId (applyEff st e) := by
  cases e with
  | act a =>
    cases a with
    | updateMessage id u =>
      have hu : u.isLoading = none ∨ u.isLoading = some (.bool false) := he
      rcases hinv with hinv | ⟨pre, m, hmsg, hpre, hsender, hid⟩
      · left
        rw [List.filter_eq_nil_iff] at hinv
        show ((st.messages.map fun msg =>
          if msg.id = id then applyUpdates msg u else msg).filter isLoadingTrue) = []
        rw [List.filter_eq_nil_iff]
        intro y hy
        obtain ⟨x, hx, rfl⟩ := List.mem_map.mp hy
        by_cases hxid : x.id = id
        · rw [if_pos hxid]
          simp [isLoadingTrue_applyUpdates x u hu (by simpa using hinv x hx)]
        · rw [if_neg hxid]
          exact hinv x hx
      · right
        refine ⟨pre.map (fun msg => if msg.id = id then applyUpdates msg u else msg),
          (if m.id = id then applyUpdates m u else m), ?_, ?_, ?_, ?_⟩
        · show (st.messages.map fun msg =>
            if msg.id = id then applyUpdates msg u else msg) = _
          rw [hmsg, List.map_append, List.map_cons, List.map_nil]
        · intro x hx
          obtain ⟨x0, hx0, rfl⟩ := List.mem_map.mp hx
          by_cases hxid : x0.id = id
          · rw [if_pos hxid]
            exact isLoadingTrue_applyUpdates x0 u hu (hpre x0 hx0)
          · rw [if_neg hxid]
            exact hpre x0 hx0
        · by_cases hmid : m.id = id
          · rw [if_pos hmid]; exact hsender
          · rw [if_neg hmid]; exact hsender
        · by_cases hmid : m.id = id
          · rw [if_pos hmid]; exact hid
          · rw [if_neg hmid]; exact hid
    | setMessages p => exact he.elim
    | addMessage p => exact he.elim
    | setConversations p => exact loadingInv_messages phId st _ rfl hinv
    | setCurrentConversationId p => exact loadingInv_messages phId st _ rfl hinv
    | setLoadingHistory p => exact he.elim
    | setShowSidebar p => exact he.elim
    | setInputValue p => exact loadingInv_messages phId st _ rfl hinv
    | resetMessages => exact he.elim
  | cookieWrite n v => exact hinv
  | chatRequest m => exact hinv
  | historyRequest i => exact hinv
  | conversationsRequest => exact hinv
  | createRequest => exact hinv
  | deleteRequest i => exact hinv

/-- Every effect produced by one frame is a `TailEff`. -/
theorem frameEffs_tailEff (phId acc : String) (j : Js) :
    ∀ e ∈ (frameEffs phId acc j).2, TailEff e := by
  intro e he
  simp only [frameEffs] at he
  split at he
  · simp at he
  · split at he
    · split at he
      · simp at he
      · split at he
        · simp only [List.mem_append] at he
          rcases he with he | he
          · split at he
            · simp only [List.mem_singleton] at he
              subst he
              trivial
            · simp at he
          · split at he
            · simp only [List.mem_singleton] at he
              subst he
              exact Or.inl rfl
            · simp at he
        · simp at he
    · split at he
      · split at he
        · simp at he
        · split at he
          · simp only [List.mem_singleton] at he
            subst he
            exact Or.inl rfl
          · simp [Js.truthy] at he
      · split at he
        · simp only [List.mem_singleton] at he
          subst he
          trivial
        · simp at he

/-- Every effect produced by one line is a `TailEff` (given the effects
already accumulated are). -/
theorem processLine_tailEff (phId : String) (st : String × List Eff) (line : String)
    (hst : ∀ e ∈ st.2, TailEff e) : ∀ e ∈ (processLine phId st line).2, TailEff e := by
  intro e he
  simp only [processLine] at he
  split at he
  · split at he
    · exact hst e he
    · split at he
      · exact hst e he
      · simp only [List.mem_append] at he
        rcases he with he | he
        · exact hst e he
        · exact frameEffs_tailEff phId st.1 _ e he
  · exact hst e he

/-- Folding lines keeps all effects `TailEff`. -/
theorem foldl_processLine_tailEff (phId : String) :
    ∀ (lines : List String) (st : String × List Eff),
      (∀ e ∈ st.2, TailEff e) →
      ∀ e ∈ (lines.foldl (processLine phId) st).2, TailEff e := by
  intro lines
  induction lines with
  | nil => intro st hst; simpa using hst
  | cons l ls ih =>
    intro st hst
    rw [List.foldl_cons]
    exact ih _ (processLine_tailEff phId st l hst)

/-- Every effect of the whole read loop is a `TailEff`. -/
theorem processReads_tailEff (phId : String) (reads : List String) :
    ∀ e ∈ (processReads phId reads).2, TailEff e := by
  have hgen : ∀ (rs : List String) (st : String × List Eff), (∀ e ∈ st.2, TailEff e) →
      ∀ e ∈ (rs.foldl (processRead phId) st).2, TailEff e := by
    intro rs
    induction rs with
    | nil => intro st hst; simpa using hst
    | cons r rs ih =>
      intro st hst
      rw [List.foldl_cons]
      exact ih _ (foldl_processLine_tailEff phId (jsSplitNl r) st hst)
  exact hgen reads ("", []) (by simp)

/-- Destructing a prefix of a cons. -/
theorem isPrefix_cons {α : Type} {p : List α} {a : α} {l : List α} (h : p <+: a :: l) :
    p = [] ∨ ∃ q, p = a :: q ∧ q <+: l := by
  rcases h with ⟨t, ht⟩
  cases p with
  | nil => exact Or.inl rfl
  | cons x q =>
    rw [List.cons_append] at ht
    injection ht with h1 h2
    exact Or.inr ⟨q, by rw [h1], ⟨t, h2⟩⟩

/-- The invariant holds at every prefix of a trace of `TailEff`s. -/
theorem prefix_inv (phId : String) :
    ∀ (es : List Eff) (st : ChatState), LoadingInv phId st → (∀ e ∈ es, TailEff e) →
      ∀ p, p <+: es → LoadingInv phId (applyEffs st p) := by
  intro es
  induction es with
  | nil =>
    intro st hinv _ p hp
    rw [List.prefix_nil.mp hp]
    exact hinv
  | cons e es ih =>
    intro st hinv hall p hp
    rcases isPrefix_cons hp with rfl | ⟨q, rfl, hq⟩
    · exact hinv
    · exact ih (applyEff st e) (tailEff_preserves phId e st (hall e (by simp)) hinv)
        (fun x hx => hall x (by simp [hx])) q hq

/-- The invariant holds at every prefix of a send trace: two appends, the
request, then only `TailEff`s. -/
theorem send_prefix_generic (phId : String) (st : ChatState) (user ld : Message)
    (req : Eff) (tail : List Eff)
    (hst : ∀ m ∈ st.messages, isLoadingTrue m = false)
    (huser : isLoadingTrue user = false)
    (hld : ld.sender = "assistant") (hldid : ld.id = phId)
    (hreq : ∀ s : ChatState, applyEff s req = s)
    (htail : ∀ e ∈ tail, TailEff e) :
    ∀ p, p <+: (Eff.act (.addMessage user) :: Eff.act (.setInputValue "") ::
        Eff.act (.addMessage ld) :: req :: tail) →
      LoadingInv phId (applyEffs st p) := by
  intro p hp
  have hinv0 : LoadingInv phId st :=
    Or.inl (List.filter_eq_nil_iff.mpr fun x hx => by simp [hst x hx])
  rcases isPrefix_cons hp with rfl | ⟨q1, rfl, hq1⟩
  · exact hinv0
  have hinv1 : LoadingInv phId (applyEff st (Eff.act (.addMessage user))) := by
    left
    show ((st.messages ++ [user]).filter isLoadingTrue) = []
    rw [List.filter_append,
      List.filter_eq_nil_iff.mpr fun x hx => by simp [hst x hx]]
    simp [huser]
  rcases isPrefix_cons hq1 with rfl | ⟨q2, rfl, hq2⟩
  · exact hinv1
  have hinv2 : LoadingInv phId
      (applyEff (applyEff st (Eff.act (.addMessage user)))
        (Eff.act (.setInputValue ""))) :=
    loadingInv_messages phId _ _ rfl hinv1
  rcases isPrefix_cons hq2 with rfl | ⟨q3, rfl, hq3⟩
  · exact hinv2
  have hinv3 : LoadingInv phId
      (applyEff (applyEff (applyEff st (Eff.act (.addMessage user)))
        (Eff.act (.setInputValue ""))) (Eff.act (.addMessage ld))) := by
    right
    refine ⟨st.messages ++ [user], ld, ?_, ?_, hld, hldid⟩
    · show (st.messages ++ [user]) ++ [ld] = (st.messages ++ [user]) ++ [ld]
      rfl
    · intro x hx
      rcases List.mem_append.mp hx with hx | hx
      · exact hst x hx
      · have hxe : x = user := by simpa using hx
        rw [hxe]
        exact huser
  rcases isPrefix_cons hq3 with rfl | ⟨q4, rfl, hq4⟩
  · exact hinv3
  have hinv4 : LoadingInv phId
      (applyEff (applyEff (applyEff (applyEff st (Eff.act (.addMessage user)))
        (Eff.act (.setInputValue ""))) (Eff.act (.addMessage ld))) req) := by
    rw [hreq]
    exact hinv3
  exact prefix_inv phId tail _ hinv4 htail q4 hq4

/-- The invariant holds at every reachable state of one send. -/
theorem sendMessage_prefix_inv (now : Nat) (st : ChatState) (msg : String)
    (resp : ChatResponse)
    (hst : ∀ m ∈ st.messages, isLoadingTrue m = false) :
    ∀ p, p <+: (sendMessage now st msg resp).2 →
      LoadingInv (toString (now + 1)) (applyEffs st p) := by
  intro p hp
  by_cases hne : jsTrim msg = ""
  · rw [show (sendMessage now st msg resp).2 = [] from by simp [sendMessage, hne]] at hp
    rw [List.prefix_nil.mp hp]
    exact Or.inl (List.filter_eq_nil_iff.mpr fun x hx => by simp [hst x hx])
  · cases resp with
    | netError m =>
      simp only [sendMessage, if_neg hne, List.cons_append, List.nil_append] at hp
      refine send_prefix_generic (toString (now + 1)) st (userMsgOf now msg)
        (loadingMsgOf now) (Eff.chatRequest msg) _ hst rfl rfl rfl (fun s => rfl) ?_ p hp
      intro e he
      simp only [List.mem_singleton] at he
      subst he
      exact Or.inr rfl
    | httpError s =>
      simp only [sendMessage, if_neg hne, List.cons_append, List.nil_append] at hp
      refine send_prefix_generic (toString (now + 1)) st (userMsgOf now msg)
        (loadingMsgOf now) (Eff.chatRequest msg) _ hst rfl rfl rfl (fun s => rfl) ?_ p hp
      intro e he
      simp only [List.mem_singleton] at he
      subst he
      exact Or.inr rfl
    | noReader =>
      simp only [sendMessage, if_neg hne, List.cons_append, List.nil_append] at hp
      refine send_prefix_generic (toString (now + 1)) st (userMsgOf now msg)
        (loadingMsgOf now) (Eff.chatRequest msg) _ hst rfl rfl rfl (fun s => rfl) ?_ p hp
      intro e he
      simp only [List.mem_singleton] at he
      subst he
      exact Or.inr rfl
    | ok reads =>
      simp only [sendMessage, if_neg hne, List.cons_append, List.nil_append] at hp
      refine send_prefix_generic (toString (now + 1)) st (userMsgOf now msg)
        (loadingMsgOf now) (Eff.chatRequest msg) _ hst rfl rfl rfl (fun s => rfl) ?_ p hp
      intro e he
      rcases List.mem_cons.mp he with rfl | he
      · exact Or.inr rfl
      · exact processReads_tailEff (toString (now + 1)) reads e he

/-- The conclusions of the loading invariant: at most one loading message,
and any loading message is the last one, an assistant message with the
placeholder id. -/
theorem loadingInv_conclusions (phId : String) (st : ChatState)
    (h : LoadingInv phId st) :
    (st.messages.filter isLoadingTrue).length ≤ 1 ∧
    ∀ m ∈ st.messages, isLoadingTrue m = true →
      m.sender = "assistant" ∧ st.messages.getLast? = some m ∧ m.id = phId := by
  rcases h with h | ⟨pre, m0, hmsg, hpre, hs, hid⟩
  · constructor
    · rw [h]; simp
    · intro m hm ht
      rw [List.filter_eq_nil_iff] at h
      exact absurd ht (by simpa using h m hm)
  · constructor
    · rw [hmsg, List.filter_append,
        List.filter_eq_nil_iff.mpr fun x hx => by simp [hpre x hx]]
      cases hl : isLoadingTrue m0 <;> simp [List.filter, hl]
    · intro m hm ht
      rw [hmsg] at hm
      rcases List.mem_append.mp hm with hm | hm
      · exact absurd ht (by simp [hpre m hm])
      · have hme : m = m0 := by simpa using hm
        subst hme
        exact ⟨hs, by rw [hmsg]; exact List.getLast?_concat pre, hid⟩

/-- C8 (confirmed): starting one send from a state with no loading message,
every reachable state (every prefix of the send's dispatch trace) has at
most one message with `isLoading = true`, and when one exists it is the most
recently appended message, an assistant message with the placeholder's id. -/
theorem spec_C8 (now : Nat) (st : ChatState) (msg : String) (resp : ChatResponse)
    (p : List Eff) (hst : ∀ m ∈ st.messages, isLoadingTrue m = false)
    (hp : p <+: (sendMessage now st msg resp).2) :
    ((applyEffs st p).messages.filter isLoadingTrue).length ≤ 1 ∧
    ∀ m ∈ (applyEffs st p).messages, isLoadingTrue m = true →
      m.sender = "assistant" ∧ (applyEffs st p).messages.getLast? = some m ∧
      m.id = toString (now + 1) :=
  loadingInv_conclusions _ _ (sendMessage_prefix_inv now st msg resp hst p hp)

/-- Witness for C8 on the full trace of a failed send from the empty state. -/
theorem spec_C8_witness :
    ((applyEffs initialState
      (sendMessage 0 initialState "oi" (.httpError 500)).2).messages.filter
        isLoadingTrue).length ≤ 1 :=
  (spec_C8 0 initialState "oi" (.httpError 500)
    (sendMessage 0 initialState "oi" (.httpError 500)).2 (by simp [initialState])
    (List.prefix_refl _)).1
